import Mathlib

/-!
Verification of the statevector-to-Bloch-angles conversion implemented by
the function `plot_statevector` in
`content/ch-states/representing-qubit-states.py` (lines 535-541):

  def plot_statevector(α, β) -> None:
      from math import acos
      θ = 2 * acos(abs(α))
      from cmath import phase
      φ = phase(β) - phase(α)
      print(θ, φ)
      from IPython.display import display
      display(plot_bloch_vector_spherical([θ, φ, 1]))

We embed the numeric core shallowly over the exact real numbers.  The
Python building blocks are modelled as follows: `abs` on a complex value
is `Complex.abs`; `math.acos` raises `ValueError: math domain error`
outside `[-1, 1]` and agrees with `Real.arccos` inside, so it becomes an
`Option`-valued function; `cmath.phase` is the two-argument arctangent
`atan2(im, re)`, total with `phase(0) = atan2(0, 0) = 0`, which is
exactly `Complex.arg`.  The Python function performs no normalization
check, and no `InvalidStateError` exists anywhere in the repository; the
only possible failure is the `acos` domain error.
-/

namespace QubitTextbook

/-- Embedding of Python `math.acos`: on `[-1, 1]` it agrees with
`Real.arccos`; outside that interval `math.acos` raises
`ValueError: math domain error`, modelled as `none`. -/
noncomputable def acos (x : ℝ) : Option ℝ :=
  if -1 ≤ x ∧ x ≤ 1 then some (Real.arccos x) else none

/-- Embedding of Python `cmath.phase`: the two-argument arctangent of
`(im, re)`, total with `phase 0 = 0`; this is `Complex.arg`. -/
noncomputable def phase (z : ℂ) : ℝ := Complex.arg z

/-- The numeric core of `plot_statevector`
(`representing-qubit-states.py:535`): computes `θ = 2 * acos(abs(α))`
and then `φ = phase(β) - phase(α)`; the pair `(θ, φ)` is what the
function prints and hands to the plotting widget.  `none` models the
`ValueError` raised by `math.acos` when `abs α > 1`; nothing else in the
function can fail. -/
noncomputable def plot_statevector (α β : ℂ) : Option (ℝ × ℝ) :=
  (acos (Complex.abs α)).map fun a => (2 * a, phase β - phase α)

/-! ### Basic evaluation lemmas -/

theorem plot_statevector_eq {α : ℂ} (β : ℂ) (h : Complex.abs α ≤ 1) :
    plot_statevector α β =
      some (2 * Real.arccos (Complex.abs α),
        Complex.arg β - Complex.arg α) := by
  have h0 : (-1 : ℝ) ≤ Complex.abs α :=
    le_trans (by norm_num) (Complex.abs.nonneg α)
  simp [plot_statevector, acos, phase, h, h0]

theorem abs_le_one_of_normalized {α β : ℂ}
    (h : Complex.abs α ^ 2 + Complex.abs β ^ 2 = 1) :
    Complex.abs α ≤ 1 := by
  nlinarith [Complex.abs.nonneg α, Complex.abs.nonneg β,
    sq_nonneg (Complex.abs β)]

/-! ### Arithmetic facts about `1 / √2` and arguments of the concrete
inputs used in the source file (lines 543-547) -/

theorem sqrt_two_pos : (0 : ℝ) < Real.sqrt 2 :=
  Real.sqrt_pos.mpr (by norm_num)

theorem one_div_sqrt_two_eq : (1 : ℝ) / Real.sqrt 2 = Real.sqrt 2 / 2 := by
  rw [div_eq_div_iff sqrt_two_pos.ne' (by norm_num : (2 : ℝ) ≠ 0), one_mul,
    Real.mul_self_sqrt (by norm_num)]

theorem one_div_sqrt_two_sq : ((1 : ℝ) / Real.sqrt 2) ^ 2 = 1 / 2 := by
  rw [div_pow, one_pow, Real.sq_sqrt (by norm_num)]

theorem one_div_sqrt_two_le_one : (1 : ℝ) / Real.sqrt 2 ≤ 1 := by
  rw [div_le_one sqrt_two_pos]
  nlinarith [Real.sq_sqrt (show (0 : ℝ) ≤ 2 by norm_num),
    Real.sqrt_nonneg 2]

theorem arccos_one_div_sqrt_two :
    Real.arccos (1 / Real.sqrt 2) = Real.pi / 4 := by
  rw [one_div_sqrt_two_eq, ← Real.cos_pi_div_four,
    Real.arccos_cos (by positivity) (by linarith [Real.pi_pos])]

theorem abs_ofReal_one_div_sqrt_two :
    Complex.abs ((1 / Real.sqrt 2 : ℝ) : ℂ) = 1 / Real.sqrt 2 := by
  rw [Complex.abs_ofReal, abs_of_pos (by positivity)]

theorem arg_ofReal_one_div_sqrt_two :
    Complex.arg ((1 / Real.sqrt 2 : ℝ) : ℂ) = 0 :=
  Complex.arg_ofReal_of_nonneg (by positivity)

theorem I_div_sqrt_two_eq :
    Complex.I / ((Real.sqrt 2 : ℝ) : ℂ) =
      ((1 / Real.sqrt 2 : ℝ) : ℂ) * Complex.I := by
  push_cast
  ring

theorem abs_I_div_sqrt_two :
    Complex.abs (Complex.I / ((Real.sqrt 2 : ℝ) : ℂ)) = 1 / Real.sqrt 2 := by
  rw [map_div₀, Complex.abs_I, Complex.abs_ofReal,
    abs_of_pos sqrt_two_pos]

theorem arg_I_div_sqrt_two :
    Complex.arg (Complex.I / ((Real.sqrt 2 : ℝ) : ℂ)) = Real.pi / 2 := by
  rw [I_div_sqrt_two_eq, Complex.arg_real_mul _ (by positivity),
    Complex.arg_I]

/-! ### C7: pole and equator states -/

/-- C7: the converter maps `(1, 0)` to `(θ = 0, φ = 0)`, `(0, 1)` to
`(θ = π, φ = 0)`, and `(1/√2, 1/√2)` to `(θ = π/2, φ = 0)`. -/
theorem pole_and_equator_states :
    plot_statevector 1 0 = some (0, 0) ∧
    plot_statevector 0 1 = some (Real.pi, 0) ∧
    plot_statevector ((1 / Real.sqrt 2 : ℝ) : ℂ) ((1 / Real.sqrt 2 : ℝ) : ℂ) =
      some (Real.pi / 2, 0) := by
  refine ⟨?_, ?_, ?_⟩
  · rw [plot_statevector_eq 0 (by norm_num [map_one])]
    norm_num [map_one, Real.arccos_one, Complex.arg_zero, Complex.arg_one]
  · rw [plot_statevector_eq 1 (by norm_num [map_zero])]
    have h2 : 2 * (Real.pi / 2) = Real.pi := by ring
    rw [map_zero, Real.arccos_zero, Complex.arg_zero, Complex.arg_one, h2]
    norm_num
  · rw [plot_statevector_eq _ (by
      rw [abs_ofReal_one_div_sqrt_two]; exact one_div_sqrt_two_le_one)]
    have h3 : 2 * (Real.pi / 4) = Real.pi / 2 := by ring
    rw [abs_ofReal_one_div_sqrt_two, arccos_one_div_sqrt_two,
      arg_ofReal_one_div_sqrt_two, h3]
    norm_num

/-! ### C1: the code performs no normalization check -/

/-- C1 counterexample: the input `(1, 1)` violates normalization by more
than the tolerance `ε = 1e-6`, yet the code does not reject it: it
produces the Bloch angles `(0, 0)` and raises no error (no
`InvalidStateError` exists in the code). -/
theorem validator_counterexample :
    1 / 1000000 < |Complex.abs 1 ^ 2 + Complex.abs 1 ^ 2 - 1| ∧
    plot_statevector 1 1 = some (0, 0) := by
  constructor
  · rw [map_one]
    norm_num
  · rw [plot_statevector_eq 1 (by norm_num [map_one])]
    norm_num [map_one, Real.arccos_one, Complex.arg_one]

/-- C1 amended: the code performs no normalization check at all; the
unnormalized input `(1, 1)` yields the angles `(0, 0)` and the degenerate
input `(0, 0)` yields the angles `(π, 0)`, in both cases without any
error being raised. -/
theorem no_normalization_check :
    plot_statevector 1 1 = some (0, 0) ∧
    plot_statevector 0 0 = some (Real.pi, 0) := by
  constructor
  · rw [plot_statevector_eq 1 (by norm_num [map_one])]
    norm_num [map_one, Real.arccos_one, Complex.arg_one]
  · rw [plot_statevector_eq 0 (by norm_num [map_zero])]
    have h2 : 2 * (Real.pi / 2) = Real.pi := by ring
    rw [map_zero, Real.arccos_zero, Complex.arg_zero, h2]
    norm_num

/-! ### C8: the equator state `(i/√2, 1/√2)` -/

/-- C8 counterexample: on the input `(i/√2, 1/√2)` the converter does not
return `(π/2, π/2)`: its `φ` component is `phase(1/√2) - phase(i/√2)
= 0 - π/2 = -π/2`, not `π/2`. -/
theorem equator_i_state_counterexample :
    plot_statevector (Complex.I / ((Real.sqrt 2 : ℝ) : ℂ))
        ((1 / Real.sqrt 2 : ℝ) : ℂ) ≠
      some (Real.pi / 2, Real.pi / 2) := by
  rw [plot_statevector_eq _ (by
    rw [abs_I_div_sqrt_two]; exact one_div_sqrt_two_le_one)]
  rw [abs_I_div_sqrt_two, arccos_one_div_sqrt_two, arg_I_div_sqrt_two,
    arg_ofReal_one_div_sqrt_two]
  intro hcon
  rw [Option.some_inj, Prod.mk.injEq] at hcon
  have h2 := hcon.2
  have hπ := Real.pi_pos
  linarith

/-- C8 amended: the converter maps `(i/√2, 1/√2)` to
`(θ = π/2, φ = -π/2)`. -/
theorem equator_i_state :
    plot_statevector (Complex.I / ((Real.sqrt 2 : ℝ) : ℂ))
        ((1 / Real.sqrt 2 : ℝ) : ℂ) =
      some (Real.pi / 2, -(Real.pi / 2)) := by
  rw [plot_statevector_eq _ (by
    rw [abs_I_div_sqrt_two]; exact one_div_sqrt_two_le_one)]
  rw [abs_I_div_sqrt_two, arccos_one_div_sqrt_two, arg_I_div_sqrt_two,
    arg_ofReal_one_div_sqrt_two]
  have h1 : 2 * (Real.pi / 4) = Real.pi / 2 := by ring
  have h2 : (0 : ℝ) - Real.pi / 2 = -(Real.pi / 2) := by ring
  rw [h1, h2]

/-! ### C10: total on the unit disc, `acos` domain error outside -/

/-- C10: the implemented converter performs no normalization check: for
every input with `abs α ≤ 1` (normalized or not) it returns angles
without any error, with `(0, 0)` yielding `(π, 0)`; and for every input
with `abs α > 1` it fails with the `acos` domain error (`none`), which
is a `ValueError`, not an `InvalidStateError` (no such exception exists
in the code). -/
theorem no_validation_total_on_disc :
    (∀ α β : ℂ,
      (Complex.abs α ≤ 1 → plot_statevector α β =
        some (2 * Real.arccos (Complex.abs α),
          Complex.arg β - Complex.arg α)) ∧
      (1 < Complex.abs α → plot_statevector α β = none)) ∧
    plot_statevector 0 0 = some (Real.pi, 0) := by
  refine ⟨fun α β => ⟨fun h => plot_statevector_eq β h, fun h => ?_⟩, ?_⟩
  · simp [plot_statevector, acos, not_le.mpr h]
  · rw [plot_statevector_eq 0 (by norm_num [map_zero])]
    have h2 : 2 * (Real.pi / 2) = Real.pi := by ring
    rw [map_zero, Real.arccos_zero, Complex.arg_zero, h2]
    norm_num

/-- Witness for C10 at the concrete inputs `(2, 0)` (domain error) and
`(1, 0)` (success). -/
theorem no_validation_total_on_disc_witness :
    (1 : ℝ) < Complex.abs 2 ∧ plot_statevector 2 0 = none ∧
    Complex.abs (1 : ℂ) ≤ 1 ∧ plot_statevector 1 0 =
      some (2 * Real.arccos (Complex.abs 1),
        Complex.arg 0 - Complex.arg 1) := by
  have h2 : (1 : ℝ) < Complex.abs 2 := by
    have he : ((2 : ℂ)) = ((2 : ℝ) : ℂ) := by norm_num
    rw [he, Complex.abs_ofReal]
    norm_num
  have h1 : Complex.abs (1 : ℂ) ≤ 1 := by norm_num [map_one]
  exact ⟨h2, (no_validation_total_on_disc.1 2 0).2 h2, h1,
    (no_validation_total_on_disc.1 1 0).1 h1⟩

/-! ### C3: the polar angle -/

/-- C3: for every normalized input, the converter returns the polar
angle `θ = 2 * arccos (abs α)` (and it succeeds: normalization puts
`abs α` inside the `acos` domain). -/
theorem theta_formula (α β : ℂ)
    (h : Complex.abs α ^ 2 + Complex.abs β ^ 2 = 1) :
    ∃ φ, plot_statevector α β =
      some (2 * Real.arccos (Complex.abs α), φ) :=
  ⟨_, plot_statevector_eq β (abs_le_one_of_normalized h)⟩

/-- Witness for C3 at the normalized input `(1, 0)`. -/
theorem theta_formula_witness :
    Complex.abs (1 : ℂ) ^ 2 + Complex.abs (0 : ℂ) ^ 2 = 1 ∧
    ∃ φ, plot_statevector 1 0 =
      some (2 * Real.arccos (Complex.abs 1), φ) := by
  have h : Complex.abs (1 : ℂ) ^ 2 + Complex.abs (0 : ℂ) ^ 2 = 1 := by
    rw [map_one, map_zero]
    norm_num
  exact ⟨h, theta_formula 1 0 h⟩

/-! ### C2: the azimuthal angle -/

/-- C2: for every normalized input, the converter returns
`φ = arg β - arg α`; when `α = 0` exactly this equals `arg β`
(Python `phase(0) = atan2(0, 0) = 0`), and the call does not fail. -/
theorem phi_formula (α β : ℂ)
    (h : Complex.abs α ^ 2 + Complex.abs β ^ 2 = 1) :
    ∃ θ, plot_statevector α β =
        some (θ, Complex.arg β - Complex.arg α) ∧
      (α = 0 → plot_statevector α β = some (θ, Complex.arg β)) := by
  refine ⟨_, plot_statevector_eq β (abs_le_one_of_normalized h),
    fun h0 => ?_⟩
  rw [plot_statevector_eq β (abs_le_one_of_normalized h), h0,
    Complex.arg_zero, sub_zero]

/-- Witness for C2 at the normalized input `(0, 1)`, where `α = 0`. -/
theorem phi_formula_witness :
    Complex.abs (0 : ℂ) ^ 2 + Complex.abs (1 : ℂ) ^ 2 = 1 ∧
    ∃ θ, plot_statevector 0 1 =
        some (θ, Complex.arg 1 - Complex.arg 0) ∧
      ((0 : ℂ) = 0 → plot_statevector 0 1 = some (θ, Complex.arg 1)) := by
  have h : Complex.abs (0 : ℂ) ^ 2 + Complex.abs (1 : ℂ) ^ 2 = 1 := by
    rw [map_one, map_zero]
    norm_num
  exact ⟨h, phi_formula 0 1 h⟩

/-! ### Arguments and magnitudes of negated concrete inputs -/

theorem abs_neg_ofReal_one_div_sqrt_two :
    Complex.abs (-((1 / Real.sqrt 2 : ℝ) : ℂ)) = 1 / Real.sqrt 2 := by
  rw [Complex.abs.map_neg, abs_ofReal_one_div_sqrt_two]

theorem arg_neg_ofReal_one_div_sqrt_two :
    Complex.arg (-((1 / Real.sqrt 2 : ℝ) : ℂ)) = Real.pi := by
  rw [← Complex.ofReal_neg]
  exact Complex.arg_ofReal_of_neg (by
    rw [neg_lt_zero]
    positivity)

theorem abs_neg_I_div_sqrt_two :
    Complex.abs (-Complex.I / ((Real.sqrt 2 : ℝ) : ℂ)) = 1 / Real.sqrt 2 := by
  rw [map_div₀, Complex.abs.map_neg, Complex.abs_I, Complex.abs_ofReal,
    abs_of_pos sqrt_two_pos]

theorem neg_I_div_sqrt_two_eq :
    -Complex.I / ((Real.sqrt 2 : ℝ) : ℂ) =
      ((1 / Real.sqrt 2 : ℝ) : ℂ) * -Complex.I := by
  push_cast
  ring

theorem arg_neg_I_div_sqrt_two :
    Complex.arg (-Complex.I / ((Real.sqrt 2 : ℝ) : ℂ)) = -(Real.pi / 2) := by
  rw [neg_I_div_sqrt_two_eq, Complex.arg_real_mul _ (by positivity),
    Complex.arg_neg_I]

theorem abs_I_mul_one_div_sqrt_two :
    Complex.abs (Complex.I * ((1 / Real.sqrt 2 : ℝ) : ℂ)) =
      1 / Real.sqrt 2 := by
  rw [map_mul, Complex.abs_I, one_mul, abs_ofReal_one_div_sqrt_two]

theorem arg_I_mul_one_div_sqrt_two :
    Complex.arg (Complex.I * ((1 / Real.sqrt 2 : ℝ) : ℂ)) = Real.pi / 2 := by
  rw [mul_comm, Complex.arg_real_mul _ (by positivity), Complex.arg_I]

theorem abs_I_mul_neg_one_div_sqrt_two :
    Complex.abs (Complex.I * -((1 / Real.sqrt 2 : ℝ) : ℂ)) =
      1 / Real.sqrt 2 := by
  rw [map_mul, Complex.abs_I, one_mul, abs_neg_ofReal_one_div_sqrt_two]

theorem arg_I_mul_neg_one_div_sqrt_two :
    Complex.arg (Complex.I * -((1 / Real.sqrt 2 : ℝ) : ℂ)) =
      -(Real.pi / 2) := by
  have he : Complex.I * -((1 / Real.sqrt 2 : ℝ) : ℂ) =
      ((1 / Real.sqrt 2 : ℝ) : ℂ) * -Complex.I := by ring
  rw [he, Complex.arg_real_mul _ (by positivity), Complex.arg_neg_I]

/-! ### C5: ranges of the returned angles -/

/-- C5 counterexample: the normalized input `(-1/√2, -i/√2)` produces
`φ = -3π/2`, which lies outside the claimed range `(-π, π]` (it violates
the lower bound `-π < φ`). -/
theorem phi_range_counterexample :
    Complex.abs (-((1 / Real.sqrt 2 : ℝ) : ℂ)) ^ 2 +
      Complex.abs (-Complex.I / ((Real.sqrt 2 : ℝ) : ℂ)) ^ 2 = 1 ∧
    plot_statevector (-((1 / Real.sqrt 2 : ℝ) : ℂ))
        (-Complex.I / ((Real.sqrt 2 : ℝ) : ℂ)) =
      some (Real.pi / 2, -(3 * Real.pi / 2)) ∧
    ¬(-Real.pi < -(3 * Real.pi / 2)) := by
  refine ⟨?_, ?_, ?_⟩
  · rw [abs_neg_ofReal_one_div_sqrt_two, abs_neg_I_div_sqrt_two,
      one_div_sqrt_two_sq]
    norm_num
  · rw [plot_statevector_eq _ (by
      rw [abs_neg_ofReal_one_div_sqrt_two]; exact one_div_sqrt_two_le_one)]
    rw [abs_neg_ofReal_one_div_sqrt_two, arccos_one_div_sqrt_two,
      arg_neg_I_div_sqrt_two, arg_neg_ofReal_one_div_sqrt_two]
    have h1 : 2 * (Real.pi / 4) = Real.pi / 2 := by ring
    have h2 : -(Real.pi / 2) - Real.pi = -(3 * Real.pi / 2) := by ring
    rw [h1, h2]
  · intro hcon
    have hπ := Real.pi_pos
    linarith

/-- C5 amended: for every normalized input the converter succeeds with
`θ ∈ [0, π]`, but `φ` is only guaranteed to lie in the open interval
`(-2π, 2π)` (it is a difference of two principal arguments), not in
`(-π, π]`. -/
theorem angle_ranges (α β : ℂ)
    (h : Complex.abs α ^ 2 + Complex.abs β ^ 2 = 1) :
    ∃ θ φ, plot_statevector α β = some (θ, φ) ∧
      0 ≤ θ ∧ θ ≤ Real.pi ∧
      -(2 * Real.pi) < φ ∧ φ < 2 * Real.pi := by
  refine ⟨_, _, plot_statevector_eq β (abs_le_one_of_normalized h),
    mul_nonneg (by norm_num) (Real.arccos_nonneg _), ?_, ?_, ?_⟩
  · have h1 := Real.arccos_le_pi_div_two.mpr (Complex.abs.nonneg α)
    linarith
  · have h1 := Complex.neg_pi_lt_arg β
    have h2 := Complex.arg_le_pi α
    linarith
  · have h1 := Complex.arg_le_pi β
    have h2 := Complex.neg_pi_lt_arg α
    linarith

/-- Witness for C5 at the normalized input `(1, 0)`. -/
theorem angle_ranges_witness :
    Complex.abs (1 : ℂ) ^ 2 + Complex.abs (0 : ℂ) ^ 2 = 1 ∧
    ∃ θ φ, plot_statevector 1 0 = some (θ, φ) ∧
      0 ≤ θ ∧ θ ≤ Real.pi ∧
      -(2 * Real.pi) < φ ∧ φ < 2 * Real.pi := by
  have h : Complex.abs (1 : ℂ) ^ 2 + Complex.abs (0 : ℂ) ^ 2 = 1 := by
    rw [map_one, map_zero]
    norm_num
  exact ⟨h, angle_ranges 1 0 h⟩

/-! ### C4: global-phase invariance -/

/-- C4 counterexample: with the normalized state `(1/√2, -1/√2)` and the
unit phase `γ = i`, the converter output is not exactly invariant: the
original state gives `φ = π` while the rephased state gives `φ = -π`
(the same angle only modulo `2π`). -/
theorem global_phase_counterexample :
    Complex.abs ((1 / Real.sqrt 2 : ℝ) : ℂ) ^ 2 +
      Complex.abs (-((1 / Real.sqrt 2 : ℝ) : ℂ)) ^ 2 = 1 ∧
    Complex.abs Complex.I = 1 ∧
    plot_statevector (Complex.I * ((1 / Real.sqrt 2 : ℝ) : ℂ))
        (Complex.I * -((1 / Real.sqrt 2 : ℝ) : ℂ)) ≠
      plot_statevector ((1 / Real.sqrt 2 : ℝ) : ℂ)
        (-((1 / Real.sqrt 2 : ℝ) : ℂ)) := by
  refine ⟨?_, Complex.abs_I, ?_⟩
  · rw [abs_ofReal_one_div_sqrt_two, abs_neg_ofReal_one_div_sqrt_two,
      one_div_sqrt_two_sq]
    norm_num
  · rw [plot_statevector_eq _ (by
      rw [abs_I_mul_one_div_sqrt_two]; exact one_div_sqrt_two_le_one)]
    rw [plot_statevector_eq _ (by
      rw [abs_ofReal_one_div_sqrt_two]; exact one_div_sqrt_two_le_one)]
    rw [abs_I_mul_one_div_sqrt_two, abs_ofReal_one_div_sqrt_two,
      arg_I_mul_neg_one_div_sqrt_two, arg_I_mul_one_div_sqrt_two,
      arg_neg_ofReal_one_div_sqrt_two, arg_ofReal_one_div_sqrt_two]
    intro hcon
    rw [Option.some_inj, Prod.mk.injEq] at hcon
    have h2 := hcon.2
    have hπ := Real.pi_pos
    linarith

/-- C4 amended: for a normalized state with both amplitudes nonzero and
any unit phase `γ`, the converter applied to `(γα, γβ)` returns the same
`θ` exactly, and a `φ` that agrees with the original one modulo `2π`
(equality in `Real.Angle`); exact equality of `φ` can fail. -/
theorem global_phase_invariance_mod_two_pi (α β γ : ℂ)
    (h : Complex.abs α ^ 2 + Complex.abs β ^ 2 = 1)
    (hγ : Complex.abs γ = 1) (hα : α ≠ 0) (hβ : β ≠ 0) :
    ∃ θ φ₁ φ₂,
      plot_statevector (γ * α) (γ * β) = some (θ, φ₁) ∧
      plot_statevector α β = some (θ, φ₂) ∧
      (φ₁ : Real.Angle) = (φ₂ : Real.Angle) := by
  have hγ0 : γ ≠ 0 := by
    intro h0
    rw [h0, map_zero] at hγ
    norm_num at hγ
  have habs : Complex.abs (γ * α) = Complex.abs α := by
    rw [map_mul, hγ, one_mul]
  have hle : Complex.abs α ≤ 1 := abs_le_one_of_normalized h
  have hab : plot_statevector (γ * α) (γ * β) =
      some (2 * Real.arccos (Complex.abs α),
        Complex.arg (γ * β) - Complex.arg (γ * α)) := by
    rw [plot_statevector_eq _ (by rw [habs]; exact hle), habs]
  refine ⟨2 * Real.arccos (Complex.abs α),
    Complex.arg (γ * β) - Complex.arg (γ * α),
    Complex.arg β - Complex.arg α, hab,
    plot_statevector_eq β hle, ?_⟩
  rw [Real.Angle.coe_sub, Real.Angle.coe_sub,
    Complex.arg_mul_coe_angle hγ0 hβ, Complex.arg_mul_coe_angle hγ0 hα]
  abel

/-- Witness for C4 at the normalized input `(1/√2, 1/√2)` with
`γ = i`. -/
theorem global_phase_invariance_mod_two_pi_witness :
    (Complex.abs ((1 / Real.sqrt 2 : ℝ) : ℂ) ^ 2 +
      Complex.abs ((1 / Real.sqrt 2 : ℝ) : ℂ) ^ 2 = 1) ∧
    Complex.abs Complex.I = 1 ∧
    ((1 / Real.sqrt 2 : ℝ) : ℂ) ≠ 0 ∧
    ∃ θ φ₁ φ₂,
      plot_statevector (Complex.I * ((1 / Real.sqrt 2 : ℝ) : ℂ))
          (Complex.I * ((1 / Real.sqrt 2 : ℝ) : ℂ)) = some (θ, φ₁) ∧
      plot_statevector ((1 / Real.sqrt 2 : ℝ) : ℂ)
          ((1 / Real.sqrt 2 : ℝ) : ℂ) = some (θ, φ₂) ∧
      (φ₁ : Real.Angle) = (φ₂ : Real.Angle) := by
  have h : Complex.abs ((1 / Real.sqrt 2 : ℝ) : ℂ) ^ 2 +
      Complex.abs ((1 / Real.sqrt 2 : ℝ) : ℂ) ^ 2 = 1 := by
    rw [abs_ofReal_one_div_sqrt_two, one_div_sqrt_two_sq]
    norm_num
  have hne : ((1 / Real.sqrt 2 : ℝ) : ℂ) ≠ 0 :=
    Complex.ofReal_ne_zero.mpr
      (by positivity : (0 : ℝ) < 1 / Real.sqrt 2).ne'
  exact ⟨h, Complex.abs_I, hne,
    global_phase_invariance_mod_two_pi _ _ _ h Complex.abs_I hne hne⟩

/-! ### C6: round trip up to global phase -/

/-- C6: for every normalized input `(α, β)`, mapping the converter
output `(θ, φ)` back to the statevector `(cos(θ/2), e^{iφ} sin(θ/2))`
reproduces `(α, β)` up to a single unit-modulus global phase factor
`γ = e^{-i arg α}`. -/
theorem round_trip_global_phase (α β : ℂ)
    (h : Complex.abs α ^ 2 + Complex.abs β ^ 2 = 1) :
    ∃ γ : ℂ, Complex.abs γ = 1 ∧ ∃ θ φ,
      plot_statevector α β = some (θ, φ) ∧
      ((Real.cos (θ / 2) : ℝ) : ℂ) = γ * α ∧
      Complex.exp (φ * Complex.I) * ((Real.sin (θ / 2) : ℝ) : ℂ) =
        γ * β := by
  have hle : Complex.abs α ≤ 1 := abs_le_one_of_normalized h
  have hθ2 : 2 * Real.arccos (Complex.abs α) / 2 =
      Real.arccos (Complex.abs α) := by ring
  have hcos : Real.cos (Real.arccos (Complex.abs α)) = Complex.abs α :=
    Real.cos_arccos (by linarith [Complex.abs.nonneg α]) hle
  have hsin : Real.sin (Real.arccos (Complex.abs α)) = Complex.abs β := by
    rw [Real.sin_arccos]
    have h1 : 1 - Complex.abs α ^ 2 = Complex.abs β ^ 2 := by linarith
    rw [h1, Real.sqrt_sq (Complex.abs.nonneg β)]
  have hexp : Complex.exp (↑(-Complex.arg α) * Complex.I) *
      Complex.exp (↑(Complex.arg α) * Complex.I) = 1 := by
    rw [← Complex.exp_add]
    have h0 : (↑(-Complex.arg α) * Complex.I +
        ↑(Complex.arg α) * Complex.I : ℂ) = 0 := by
      push_cast
      ring
    rw [h0, Complex.exp_zero]
  have hγα : Complex.exp (↑(-Complex.arg α) * Complex.I) * α =
      ((Complex.abs α : ℝ) : ℂ) := by
    calc Complex.exp (↑(-Complex.arg α) * Complex.I) * α
        = Complex.exp (↑(-Complex.arg α) * Complex.I) *
            (↑(Complex.abs α) *
              Complex.exp (↑(Complex.arg α) * Complex.I)) := by
          rw [Complex.abs_mul_exp_arg_mul_I]
      _ = ↑(Complex.abs α) *
            (Complex.exp (↑(-Complex.arg α) * Complex.I) *
              Complex.exp (↑(Complex.arg α) * Complex.I)) := by ring
      _ = ((Complex.abs α : ℝ) : ℂ) := by rw [hexp, mul_one]
  have hγβ : Complex.exp (↑(-Complex.arg α) * Complex.I) * β =
      Complex.exp (↑(Complex.arg β - Complex.arg α) * Complex.I) *
        ((Complex.abs β : ℝ) : ℂ) := by
    calc Complex.exp (↑(-Complex.arg α) * Complex.I) * β
        = Complex.exp (↑(-Complex.arg α) * Complex.I) *
            (↑(Complex.abs β) *
              Complex.exp (↑(Complex.arg β) * Complex.I)) := by
          rw [Complex.abs_mul_exp_arg_mul_I]
      _ = Complex.exp (↑(-Complex.arg α) * Complex.I) *
            Complex.exp (↑(Complex.arg β) * Complex.I) *
            ↑(Complex.abs β) := by ring
      _ = Complex.exp (↑(Complex.arg β - Complex.arg α) * Complex.I) *
            ((Complex.abs β : ℝ) : ℂ) := by
          rw [← Complex.exp_add]
          congr 1
          push_cast
          ring_nf
  refine ⟨Complex.exp (↑(-Complex.arg α) * Complex.I), ?_,
    2 * Real.arccos (Complex.abs α), Complex.arg β - Complex.arg α,
    ?_, ?_, ?_⟩
  · exact Complex.abs_exp_ofReal_mul_I _
  · exact plot_statevector_eq β hle
  · rw [hθ2, hcos]
    exact hγα.symm
  · rw [hθ2, hsin]
    exact hγβ.symm

/-- Witness for C6 at the normalized input `(1, 0)`. -/
theorem round_trip_global_phase_witness :
    Complex.abs (1 : ℂ) ^ 2 + Complex.abs (0 : ℂ) ^ 2 = 1 ∧
    ∃ γ : ℂ, Complex.abs γ = 1 ∧ ∃ θ φ,
      plot_statevector 1 0 = some (θ, φ) ∧
      ((Real.cos (θ / 2) : ℝ) : ℂ) = γ * 1 ∧
      Complex.exp (φ * Complex.I) * ((Real.sin (θ / 2) : ℝ) : ℂ) =
        γ * 0 := by
  have h : Complex.abs (1 : ℂ) ^ 2 + Complex.abs (0 : ℂ) ^ 2 = 1 := by
    rw [map_one, map_zero]
    norm_num
  exact ⟨h, round_trip_global_phase 1 0 h⟩

end QubitTextbook
